import Mathlib

/-!
Verification development for the komorebi MCP aggregation core.

The definitions below are a shallow embedding of the Python sources
`backend/app/mcp/auth.py`, `backend/app/mcp/client.py`,
`backend/app/mcp/registry.py`, `backend/app/services/mcp_service.py`
and the data model `backend/app/models/mcp.py`.

JSON values decoded by `json.loads` are modelled by the inductive `JValue`;
Python dicts appear as ordered association lists with unique keys, UUIDs as
natural numbers, asyncio futures as an explicit `FutureState`, and the
outcomes of external collaborators (subprocess spawning, the OS keyring,
the chunk repository) as explicit parameters of the functions they affect.
-/

set_option maxHeartbeats 1000000

namespace Komorebi

/-- A JSON value as produced by Python's `json.loads`: objects are ordered
association lists (Python dicts preserve insertion order and have unique
keys); numbers are modelled as integers (the protocol only uses integer
ids). -/
inductive JValue where
  | null : JValue
  | bool : Bool → JValue
  | num : Int → JValue
  | str : String → JValue
  | arr : List JValue → JValue
  | obj : List (String × JValue) → JValue

/-- Python `d.get(key)` on a dict modelled as an association list:
first (and, with unique keys, only) binding wins. -/
def jlookup : List (String × JValue) → String → Option JValue
  | [], _ => none
  | (k, v) :: rest, key => if k = key then some v else jlookup rest key

/-- Python truthiness of a json-decoded value (`if result:`). -/
def truthy : JValue → Bool
  | .null => false
  | .bool b => b
  | .num n => n != 0
  | .str s => s != ""
  | .arr xs => !xs.isEmpty
  | .obj fs => !fs.isEmpty

/-- JSON string escaping used by `json.dumps` (quote, backslash and the
common control characters; `\uXXXX` escaping of other code points is not
needed by any claim). -/
def escChar (c : Char) : String :=
  if c = '"' then "\\\""
  else if c = '\\' then "\\\\"
  else if c = '\n' then "\\n"
  else if c = '\t' then "\\t"
  else if c = '\r' then "\\r"
  else String.singleton c

/-- Escape a whole string for JSON output. -/
def escapeJson (s : String) : String :=
  String.join (s.data.map escChar)

mutual

/-- Models Python's `json.dumps` (an external standard-library collaborator):
scalars render as JSON literals, strings are quoted and escaped; container
layout is a readable single-line rendering (the claims depend only on the
scalar cases, never on the exact whitespace of the `indent=2` layout). -/
def jsonDumps : JValue → String
  | .null => "null"
  | .bool true => "true"
  | .bool false => "false"
  | .num n => toString n
  | .str s => "\"" ++ escapeJson s ++ "\""
  | .arr xs => "[" ++ jsonDumpsList xs ++ "]"
  | .obj fs => "\x7b" ++ jsonDumpsObj fs ++ "\x7d"

/-- Comma-separated rendering of a JSON array's elements. -/
def jsonDumpsList : List JValue → String
  | [] => ""
  | [x] => jsonDumps x
  | x :: y :: xs => jsonDumps x ++ ", " ++ jsonDumpsList (y :: xs)

/-- Comma-separated rendering of a JSON object's fields. -/
def jsonDumpsObj : List (String × JValue) → String
  | [] => ""
  | [(k, v)] => "\"" ++ escapeJson k ++ "\": " ++ jsonDumps v
  | (k, v) :: f :: fs => "\"" ++ escapeJson k ++ "\": " ++ jsonDumps v ++ ", " ++ jsonDumpsObj (f :: fs)

end

/-- Models Python `str()` applied to a json-decoded value (`str(None)` is
`"None"`, booleans capitalise, numbers print decimally, a string is itself).
The container cases fall back to the JSON rendering; no claim exercises
them (in `_extract_text` lists and dicts are handled before `str` is
reached). -/
def pyStr : JValue → String
  | .null => "None"
  | .bool true => "True"
  | .bool false => "False"
  | .num n => toString n
  | .str s => s
  | .arr xs => jsonDumps (.arr xs)
  | .obj fs => jsonDumps (.obj fs)

/-! ## SecretResolver — `backend/app/mcp/auth.py`

The host environment (`os.environ`), the availability of the optional
`keyring` package and the OS keyring contents are modelled as an explicit
`SecretWorld` so the provider functions stay pure. A provider raising a
Python exception is an `Except.error` carrying `str(e)`. -/

/-- Is the first list a prefix of the second? (Executable, structural —
used to model Python's substring operations so concrete witnesses reduce
in the kernel.) -/
def isCharPrefix : List Char → List Char → Bool
  | [], _ => true
  | _ :: _, [] => false
  | p :: ps, c :: cs => p == c && isCharPrefix ps cs

/-- Split a char list at the first occurrence of `sep`: `some (pre, post)`
with the separator removed, or `none` when `sep` does not occur. Models
Python's `in` / `partition` / `split(sep, 1)` family. -/
def breakOnSeq (sep : List Char) : List Char → Option (List Char × List Char)
  | [] => if sep.isEmpty then some ([], []) else none
  | c :: cs =>
    if isCharPrefix sep (c :: cs) then some ([], (c :: cs).drop sep.length)
    else
      match breakOnSeq sep cs with
      | some (pre, post) => some (c :: pre, post)
      | none => none

/-- Python `s.startswith(pre)`. -/
def pyStartsWith (s pre : String) : Bool :=
  isCharPrefix pre.data s.data

/-- The external state `auth.py` consults: the process environment, whether
the `keyring` package imported successfully, and the secret store keyed by
(service, username). -/
structure SecretWorld where
  osEnv : List (String × String)
  keyringAvailable : Bool
  keyring : List ((String × String) × String)

/-- Python `os.environ.get(name, "")`. -/
def osEnvGet (w : SecretWorld) (name : String) : String :=
  match w.osEnv.find? (fun e => e.1 == name) with
  | some e => e.2
  | none => ""

/-- Python `keyring.get_password(service, username)` (`none` models `None`). -/
def keyringGetPassword (w : SecretWorld) (service username : String) : Option String :=
  (w.keyring.find? (fun e => e.1.1 == service && e.1.2 == username)).map (·.2)

/-- `EnvProvider.get_secret`: a non-`env://` URI yields `""`; otherwise the
variable named by `key_uri.replace("env://", "", 1)` (here: everything
after the 6-character prefix) is read with default `""` (a warning is
logged when empty, which the model drops). This provider never raises. -/
def envGetSecret (w : SecretWorld) (key_uri : String) : Except String String :=
  if !(pyStartsWith key_uri "env://") then .ok ""
  else .ok (osEnvGet w (String.mk (key_uri.data.drop 6)))

/-- Python `path.split("/", 1)`: split at the first slash only; `none`
models the `ValueError` raised when no slash is present. -/
def splitOnceSlash (s : String) : Option (String × String) :=
  match breakOnSeq ['/'] s.data with
  | none => none
  | some (pre, post) => some (String.mk pre, String.mk post)

/-- `SystemKeyringProvider.get_secret`: raises when the package is missing,
on a malformed URI, or when the looked-up secret is absent or empty
(`if not secret`); otherwise returns the stored secret. The path after
`keyring://` comes from `key_uri.partition("keyring://")`. -/
def keyringGetSecret (w : SecretWorld) (key_uri : String) : Except String String :=
  if !w.keyringAvailable then
    .error "keyring package is not installed. Install with: pip install keyring"
  else if !(pyStartsWith key_uri "keyring://") then .ok ""
  else
    match splitOnceSlash (String.mk (key_uri.data.drop 10)) with
    | none =>
        .error ("Invalid keyring URI format: " ++ key_uri ++ " (expected keyring://service/username)")
    | some (service, username) =>
        match keyringGetPassword w service username with
        | some secret =>
            if secret = "" then
              .error ("Secret not found in keyring: " ++ service ++ "/" ++ username)
            else .ok secret
        | none => .error ("Secret not found in keyring: " ++ service ++ "/" ++ username)

/-- Python `"://" in value`. -/
def hasSchemeSep (value : String) : Bool :=
  (breakOnSeq [':', '/', '/'] value.data).isSome

/-- Python `value.split("://")[0]`: the text before the first `://`, or the
whole value when the separator is absent. -/
def schemeOf (value : String) : String :=
  match breakOnSeq [':', '/', '/'] value.data with
  | some (pre, _) => String.mk pre
  | none => value

/-- `SecretFactory._providers.get(scheme)` followed by `provider.get_secret`:
`none` when the scheme has no registered provider. -/
def providerGetSecret (w : SecretWorld) (scheme key_uri : String) : Option (Except String String) :=
  if scheme = "keyring" then some (keyringGetSecret w key_uri)
  else if scheme = "env" then some (envGetSecret w key_uri)
  else none

/-- The per-value body of the loop in `SecretFactory.resolve_env_vars`:
a value with a `://` separator and a recognized scheme resolves through its
provider, a provider exception degrades to `""`, everything else passes
through unchanged. -/
def resolveValue (w : SecretWorld) (value : String) : String :=
  if hasSchemeSep value then
    match providerGetSecret w (schemeOf value) value with
    | some (.ok s) => s
    | some (.error _) => ""
    | none => value
  else value

/-- `SecretFactory.resolve_env_vars`: rebuilds the config dict key by key.
Total by construction — the Python function catches every provider
exception, so resolution as a whole never raises. -/
def resolve_env_vars (w : SecretWorld) (env_config : List (String × String)) :
    List (String × String) :=
  match env_config with
  | [] => []
  | (k, v) :: rest => (k, resolveValue w v) :: resolve_env_vars w rest

/-! ## Data model — `backend/app/models/mcp.py` -/

/-- `MCPServerStatus`: connection status of an MCP server. -/
inductive MCPServerStatus where
  | disconnected
  | connecting
  | connected
  | error
deriving DecidableEq

/-- `MCPTool`: a tool exposed by an MCP server (UUIDs modelled as `Nat`). -/
structure MCPTool where
  name : String
  description : Option String
  server_id : Nat
  input_schema : JValue

/-- `MCPServerConfig`: configuration and live status of one registered
server. -/
structure MCPServerConfig where
  id : Nat
  name : String
  server_type : String
  command : String
  args : List String
  env : List (String × String)
  enabled : Bool
  status : MCPServerStatus
  last_error : Option String

/-! ## ProtocolClient — `backend/app/mcp/client.py`

An `asyncio.Future` held in `_pending_requests` is modelled by
`FutureState`; the pending table is an ordered association list keyed by
the integer correlation id (a `Nat`, since ids come from the per-client
counter). The subprocess handle is `Option Nat` (a pid stands in for the
whole `Process` object, whose stdin/stdout pipes exist whenever it does). -/

/-- The state of one entry of `_pending_requests`: an unresolved future, or
a future resolved by `set_result` / `set_exception` (the exception's
message). -/
inductive FutureState where
  | pending
  | resolvedOk : JValue → FutureState
  | resolvedErr : String → FutureState

/-- The pending-request table `_pending_requests`. -/
abbrev PendingTable := List (Nat × FutureState)

/-- Dict lookup in the pending table (`_pending_requests.get(i)` /
`i in _pending_requests`, which agree because keys are unique). -/
def tlookup : PendingTable → Nat → Option FutureState
  | [], _ => none
  | (k, st) :: rest, i => if k = i then some st else tlookup rest i

/-- The full state of one `MCPClient` (its `config` is the shared
`MCPServerConfig` object the client mutates in place). -/
structure MCPClientState where
  config : MCPServerConfig
  process : Option Nat
  rid : Nat
  pending : PendingTable
  tools : List MCPTool
  reader_task : Bool

/-- One line arriving on the child's stdout: either text that fails
`json.loads` (`junk`), or a decoded JSON-RPC message. The message keeps
exactly the fields `_read_responses` inspects: the `id` value (any JSON
value), the `error` object when the key is present, and the `result`
value when that key is present. -/
inductive Line where
  | junk
  | msg : Option JValue → Option (List (String × JValue)) → Option JValue → Line

/-- The `id` field of a parsed message. -/
def Line.msgId : Line → Option JValue
  | .junk => none
  | .msg i _ _ => i

/-- Python `message["id"] in self._pending_requests` for one integer key:
dict membership uses Python equality, under which `True == 1`,
`False == 0`, and an integer equals itself; no other JSON value equals an
int key. -/
def idMatches (v : JValue) (k : Nat) : Bool :=
  match v with
  | .num n => n == (k : Int)
  | .bool b => (if b then (1 : Int) else 0) == (k : Int)
  | _ => false

/-- `message["error"].get("message", "Unknown error")` turned into the text
of the `RuntimeError` the future is failed with (`str` of a non-string
message value, per Python's exception stringification). -/
def errMsgOf (eo : List (String × JValue)) : String :=
  match jlookup eo "message" with
  | some (.str s) => s
  | some v => pyStr v
  | none => "Unknown error"

/-- How `_read_responses` completes a matched pending future: an `error`
key fails it with the error's message, otherwise it succeeds with the
`result` payload (defaulting to the empty object, per
`message.get("result", {})`). -/
def completeOutcome (err : Option (List (String × JValue))) (result : Option JValue) :
    FutureState :=
  match err with
  | some eo => .resolvedErr (errMsgOf eo)
  | none => .resolvedOk (result.getD (.obj []))

/-- The effect of one loop iteration of `_read_responses` on one table
entry: an entry whose key equals the message id and whose future is still
unresolved (`if future and not future.done()`) is completed; every other
entry is untouched. -/
def updateEntry (idv : JValue) (err : Option (List (String × JValue)))
    (result : Option JValue) (k : Nat) (st : FutureState) : FutureState :=
  if idMatches idv k then
    match st with
    | .pending => completeOutcome err result
    | done => done
  else st

/-- One iteration of the `_read_responses` loop: a line that fails to parse
is skipped (`except json.JSONDecodeError: continue`); a message without an
`id`, or whose id is in no table entry, changes nothing; otherwise the
matched entry is completed. -/
def readLine (tbl : PendingTable) : Line → PendingTable
  | .junk => tbl
  | .msg mid err result =>
    match mid with
    | none => tbl
    | some idv =>
      if tbl.any (fun e => idMatches idv e.1) then
        tbl.map (fun e => (e.1, updateEntry idv err result e.1 e.2))
      else tbl

/-- The whole `_read_responses` loop over a finite stdout transcript. -/
def readResponses (tbl : PendingTable) (lines : List Line) : PendingTable :=
  lines.foldl readLine tbl

/-- How the single await inside `_request` ends: the reader resolved the
future with a result, the reader failed it with a protocol error, or the
fixed 30-second `asyncio.wait_for` deadline expired. -/
inductive ReqOutcome where
  | success : JValue → ReqOutcome
  | protocolError : String → ReqOutcome
  | timeout

/-- Observable steps of `_request`, in program order: the future is stored
in the pending table, then the framed request line is written to the
child's stdin. -/
inductive ReqEvent where
  | registered : Nat → ReqEvent
  | wroteBytes : Nat → ReqEvent

/-- What one call of `_request` produces: the value returned or the
exception propagated (`Except.error` carries the message of the
`RuntimeError` / `TimeoutError`), the client state after the `finally`
block, and the ordered side-effect trace. -/
structure ReqResult where
  result : Except String JValue
  state : MCPClientState
  events : List ReqEvent

/-- `MCPClient._request`: raises immediately when no process is attached;
otherwise increments the id counter, registers a fresh future under the
new id, writes the request line, awaits the outcome, and in a `finally`
block pops its own entry from the pending table. -/
def requestRun (s : MCPClientState) (outcome : ReqOutcome) : ReqResult :=
  if s.process.isNone then
    { result := .error "Not connected to MCP server", state := s, events := [] }
  else
    let i := s.rid + 1
    let s1 : MCPClientState :=
      { s with rid := i, pending := s.pending ++ [(i, FutureState.pending)] }
    let res : Except String JValue :=
      match outcome with
      | .success v => .ok v
      | .protocolError msg => .error msg
      | .timeout => .error "TimeoutError"
    { result := res,
      state := { s1 with pending := s1.pending.filter (fun e => e.1 != i) },
      events := [.registered i, .wroteBytes i] }

/-- The ids `_request` has handed out so far: the counter starts at 0 and
is pre-incremented, so after `rid` requests they are exactly 1..rid. -/
def assignedIds (s : MCPClientState) : List Nat :=
  (List.range s.rid).map (· + 1)

/-- What the world does during one `connect()` attempt, covering the three
ways the `try` block can go: `create_subprocess_exec` raises (its message),
the process spawns but the `_initialize` handshake raises after some number
of completed requests (timeout, protocol error or malformed response —
carrying `str(e)`), or the handshake succeeds and `tools/list` yields a
catalog. -/
inductive ConnectWorld where
  | spawnFail : String → ConnectWorld
  | handshakeFail : Nat → Nat → String → ConnectWorld
  | handshakeOk : Nat → List MCPTool → ConnectWorld

/-- Whether the attempt fails. -/
def ConnectWorld.isFailure : ConnectWorld → Bool
  | .spawnFail _ => true
  | .handshakeFail _ _ _ => true
  | .handshakeOk _ _ => false

/-- `str(e)` of the exception the failing attempt raises. -/
def ConnectWorld.failureMsg : ConnectWorld → String
  | .spawnFail m => m
  | .handshakeFail _ _ m => m
  | .handshakeOk _ _ => ""

/-- `MCPClient.connect`: returns `True` at once when a process handle
already exists; otherwise marks the config `connecting`, resolves secrets
(total, never a failure source — see `resolve_env_vars`), spawns the
process, starts the stderr and reader tasks, runs the handshake, and on
success stores the catalog and marks `connected`; the surrounding
`except Exception` turns any failure into status `error` with
`last_error = str(e)` and a `False` return. -/
def connect (s : MCPClientState) (w : ConnectWorld) : Bool × MCPClientState :=
  if s.process.isSome then (true, s)
  else
    let s0 : MCPClientState :=
      { s with config := { s.config with status := .connecting } }
    match w with
    | .spawnFail msg =>
        (false,
         { s0 with config := { s0.config with status := .error, last_error := some msg } })
    | .handshakeFail pid n msg =>
        let s1 : MCPClientState :=
          { s0 with process := some pid, reader_task := true, rid := s0.rid + n }
        (false,
         { s1 with config := { s1.config with status := .error, last_error := some msg } })
    | .handshakeOk pid catalog =>
        let s1 : MCPClientState :=
          { s0 with process := some pid, reader_task := true, rid := s0.rid + 2,
                    tools := catalog }
        (true,
         { s1 with config := { s1.config with status := .connected, last_error := none } })

/-- `MCPClient.disconnect`: cancels the reader task (exceptions swallowed),
terminates the child with a bounded grace period escalating to a kill and
reap (all of which only drops the process handle), clears the catalog and
marks the config disconnected. Total — every exception inside is caught. -/
def disconnect (s : MCPClientState) : MCPClientState :=
  { s with reader_task := false,
           process := none,
           config := { s.config with status := .disconnected },
           tools := [] }

/-! ## Aggregator — `backend/app/mcp/registry.py`

`MCPRegistry._clients` is a dict keyed by server id; Python dicts iterate
in insertion order, so it is modelled as the ordered list of clients in
registration order (registration keeps ids unique). `find_tool` and
`list_tools` only read each client's status and catalog, captured by
`ClientView`. -/

/-- What `find_tool` reads from one registered client: its server id, its
config's status, and its tool catalog. -/
structure ClientView where
  id : Nat
  status : MCPServerStatus
  tools : List MCPTool

/-- The inner loop of `find_tool` over one client's catalog: first tool
with the requested name. -/
def toolLoop : List MCPTool → String → Option MCPTool
  | [], _ => none
  | t :: ts, n => if t.name = n then some t else toolLoop ts n

/-- `MCPRegistry.find_tool`: ordered scan over the registered clients,
skipping any client not in `connected` state, returning the first
(client, tool) pair whose catalog holds the name. -/
def find_tool : List ClientView → String → Option (ClientView × MCPTool)
  | [], _ => none
  | c :: cs, n =>
    if c.status = MCPServerStatus.connected then
      match toolLoop c.tools n with
      | some t => some (c, t)
      | none => find_tool cs n
    else find_tool cs n

/-- `MCPRegistry.call_tool`: resolves via `find_tool`, raising
`ValueError("Tool not found: ...")` on a miss, otherwise delegating
`client.call_tool(tool_name, arguments)` to the resolved client — the
delegated call is the abstract `exec` parameter applied to that client's
id. -/
def registry_call_tool (clients : List ClientView) (tool_name : String)
    (arguments : JValue) (exec : Nat → String → JValue → JValue) :
    Except String JValue :=
  match find_tool clients tool_name with
  | none => .error ("Tool not found: " ++ tool_name)
  | some (c, _t) => .ok (exec c.id tool_name arguments)

/-- One registered server as `connect_all` sees it: the client (whose
config carries the `enabled` flag) together with the environment its
connect attempt will meet. -/
structure RegEntry where
  client : MCPClientState
  world : ConnectWorld

/-- Observable step boundaries of the connect attempts a batch issues:
attempt on server `id` starts / finishes with outcome `ok`. -/
inductive BatchEvent where
  | connStart : Nat → BatchEvent
  | connEnd : Nat → Bool → BatchEvent

/-- `MCPRegistry.connect_all`: iterates the registered configs in
registration order and, for each enabled one, awaits `self.connect(id)`
to completion before moving on, recording `results[id] = ok`. The second
component is the event trace of attempt starts and ends in execution
order. -/
def connect_all (reg : List RegEntry) : List (Nat × Bool) × List BatchEvent :=
  match reg with
  | [] => ([], [])
  | e :: rest =>
    if e.client.config.enabled then
      let ok := (connect e.client e.world).1
      let tail := connect_all rest
      ((e.client.config.id, ok) :: tail.1,
       .connStart e.client.config.id :: .connEnd e.client.config.id ok :: tail.2)
    else connect_all rest

/-- Scan helper: does some attempt start while `outstanding` attempts are
already started but not yet finished? -/
def anyStartWhileOutstanding : List BatchEvent → Nat → Bool
  | [], _ => false
  | .connStart _ :: rest, outstanding =>
      (outstanding > 0) || anyStartWhileOutstanding rest (outstanding + 1)
  | .connEnd _ _ :: rest, outstanding =>
      anyStartWhileOutstanding rest (outstanding - 1)

/-- Modelled from the spec: "`connect_all()` issues connect attempts
concurrently across every enabled descriptor" — concurrent issuance means
some attempt is issued while an earlier one is still outstanding, i.e. a
`connStart` occurs in the trace strictly between another attempt's
`connStart` and its `connEnd`. -/
def issuedConcurrently (trace : List BatchEvent) : Bool :=
  anyStartWhileOutstanding trace 0

/-! ## CapturePipeline — `backend/app/services/mcp_service.py`

The external chunk repository is modelled as an append-only store handing
out successive ids; `ChunkCreate` keeps exactly the fields
`_capture_as_chunk` fills in. -/

/-- The `ChunkCreate` payload passed to the repository. -/
structure ChunkCreate where
  content : String
  project_id : Option Nat
  tags : List String
  source : String

/-- Models the external chunk repository: created chunks in creation order,
and the id the next `create` will return. -/
structure ChunkStore where
  nextId : Nat
  chunks : List (Nat × ChunkCreate)

/-- Models `ChunkRepository.create`: appends the record and returns the new
chunk's id. -/
def chunkStoreCreate (st : ChunkStore) (c : ChunkCreate) : Nat × ChunkStore :=
  (st.nextId, { nextId := st.nextId + 1, chunks := st.chunks ++ [(st.nextId, c)] })

/-- The `item.get("type") == "text"` test of `_extract_text` (equality with
the Python string `"text"` holds only for a JSON string of that value). -/
def isTextBlock (fields : List (String × JValue)) : Bool :=
  match jlookup fields "type" with
  | some (.str t) => t == "text"
  | _ => false

/-- `item.get("text", "")` for a text block: a missing field defaults to
`""`. (A present non-string value would make Python's later `"\n".join`
raise; no claim and no well-formed MCP result reaches that case.) -/
def blockText (fields : List (String × JValue)) : String :=
  match jlookup fields "text" with
  | some (.str s) => s
  | _ => ""

/-- The accumulation loop of `_extract_text` over a list result: the
`parts` list, in list order. (The `hasattr(item, "type")` branch serves
typed content-block objects, which json-decoded values never are.) -/
def collectTextParts : List JValue → List String
  | [] => []
  | item :: rest =>
    match item with
    | .obj fields =>
        if isTextBlock fields then blockText fields :: collectTextParts rest
        else collectTextParts rest
    | _ => collectTextParts rest

/-- The loop body as a per-item function, for stating what each block
contributes: a text-tagged block contributes its text, anything else
contributes nothing. -/
def textOfBlock : JValue → Option String
  | .obj fields => if isTextBlock fields then some (blockText fields) else none
  | _ => none

/-- `MCPService._extract_text`: a list result joins its text blocks with
newlines; a dict result is rendered with `json.dumps(result, indent=2)`;
any other value is `str(result)` when truthy and `""` otherwise. -/
def extract_text : JValue → String
  | .arr items => String.intercalate "\n" (collectTextParts items)
  | .obj fields => jsonDumps (.obj fields)
  | v => if truthy v then pyStr v else ""

/-- Modelled from the spec: "for a list-of-blocks result, all blocks tagged
as text are concatenated in order; for any other shape, the raw result is
serialized to a readable JSON representation." Stated as written, to be
compared with `extract_text` from the source. -/
def extract_text_spec : JValue → String
  | .arr items => String.join (collectTextParts items)
  | v => jsonDumps v

/-- The `log_entry` synthesized by `_capture_as_chunk`: tool identity, the
arguments as indented JSON, and the extracted output. -/
def logEntry (server_name tool_name : String) (arguments : JValue)
    (text_content : String) : String :=
  "🛠️ **Tool Execution: " ++ server_name ++ ":" ++ tool_name ++ "**\n" ++
  "```json\n" ++ jsonDumps arguments ++ "\n```\n" ++
  "**Output:**\n" ++ text_content

/-- `MCPService._capture_as_chunk`: builds the formatted record and hands
it to the repository's create, tagging it with server/tool provenance and
the optional project association; returns the new chunk's id and the
store after the append. -/
def capture_as_chunk (st : ChunkStore) (server_name tool_name : String)
    (arguments : JValue) (text_content : String) (project_id : Option Nat) :
    Nat × ChunkStore :=
  chunkStoreCreate st
    { content := logEntry server_name tool_name arguments text_content,
      project_id := project_id,
      tags := ["tool_result", "mcp:" ++ server_name, tool_name],
      source := "mcp:" ++ server_name ++ ":" ++ tool_name }

/-- Python `server_name or "unknown"`: `None` and the empty string are both
falsy and fall back to `"unknown"`. -/
def svcServerName : Option String → String
  | some s => if s = "" then "unknown" else s
  | none => "unknown"

/-- The response dict of `MCPService.call_tool`: the `chunk_id` key is
present (as `str(chunk_id)`) exactly when a chunk was captured. -/
structure SvcResponse where
  tool : String
  result : JValue
  chunk_id : Option String

/-- `MCPService.call_tool`: runs the tool through the registry (a raised
error propagates unchanged), extracts the text, and — when `capture` is
true, the text is non-empty and a chunk repository was injected — captures
exactly one chunk via `_capture_as_chunk` under
`server_name or "unknown"` (Python `or`: `None` and `""` both fall back).
Returns the response together with the repository state. -/
def svc_call_tool (chunk_repo : Option ChunkStore) (server_name : Option String)
    (tool_name : String) (arguments : JValue) (project_id : Option Nat)
    (capture : Bool) (registryOutcome : Except String JValue) :
    Except String (SvcResponse × Option ChunkStore) :=
  match registryOutcome with
  | .error e => .error e
  | .ok result =>
    let text_content := extract_text result
    let sname : String := svcServerName server_name
    match chunk_repo with
    | some st =>
      if capture && (text_content != "") then
        let created := capture_as_chunk st sname tool_name arguments text_content project_id
        .ok ({ tool := tool_name, result := result, chunk_id := some (toString created.1) },
             some created.2)
      else
        .ok ({ tool := tool_name, result := result, chunk_id := none }, some st)
    | none =>
        .ok ({ tool := tool_name, result := result, chunk_id := none }, none)

/-! ## Concrete fixtures used by witnesses and counterexamples -/

/-- A registered server configuration as `register` stores it. -/
def demoConfig (id : Nat) (command : String) (enabled : Bool) : MCPServerConfig :=
  { id := id, name := "server-" ++ toString id, server_type := "custom",
    command := command, args := [], env := [], enabled := enabled,
    status := .disconnected, last_error := none }

/-- A freshly instantiated client (`MCPClient.__init__`). -/
def freshClient (cfg : MCPServerConfig) : MCPClientState :=
  { config := cfg, process := none, rid := 0, pending := [], tools := [],
    reader_task := false }

/-! ## Theorems -/

/-- Claim C6: `disconnect()` always lands in `Disconnected` with an empty
tool catalog, and is idempotent — a second call is a no-op on an
already-disconnected client and never raises (the function is total). -/
theorem c6_disconnect_idempotent (s : MCPClientState) :
    (disconnect s).config.status = MCPServerStatus.disconnected
    ∧ (disconnect s).tools = []
    ∧ (disconnect s).process = none
    ∧ disconnect (disconnect s) = disconnect s := by
  refine ⟨rfl, rfl, rfl, ?_⟩
  cases s with
  | mk config process rid pending tools reader_task => cases config; rfl

/-- Claim C10: when a child-process handle already exists, `connect()`
returns `True` immediately and changes nothing — no spawn, no handshake,
and the descriptor's status, last error and tool catalog are untouched
(the returned state is the input state, for every possible world). -/
theorem c10_connect_short_circuit (s : MCPClientState) (w : ConnectWorld) (p : Nat)
    (h : s.process = some p) :
    connect s w = (true, s) := by
  simp [connect, h]

/-- A client left over from a `connect()` whose handshake failed after the
spawn: the process handle survives and the status is `Error`. -/
def c10Stale : MCPClientState :=
  (connect (freshClient (demoConfig 4 "node" true))
    (ConnectWorld.handshakeFail 7 1 "handshake timeout")).2

/-- Witness for C10: on the concrete stale client the hypothesis holds and
a later `connect()` reports success while the client stays in `Error`. -/
theorem c10_witness :
    c10Stale.process = some 7
    ∧ c10Stale.config.status = MCPServerStatus.error
    ∧ connect c10Stale (ConnectWorld.spawnFail "unused") = (true, c10Stale) :=
  ⟨rfl, rfl, c10_connect_short_circuit c10Stale (ConnectWorld.spawnFail "unused") 7 rfl⟩

/-- Claim C2 (amended): on any failing step, `connect()` returns `False`
without raising, the status is `Error` — never `Connected` — and the
last-error message is exactly the failure's text `str(e)` (which the
counterexample shows can be empty). -/
theorem c2_connect_failure (s : MCPClientState) (w : ConnectWorld)
    (hproc : s.process = none) (hfail : w.isFailure = true) :
    (connect s w).1 = false
    ∧ (connect s w).2.config.status = MCPServerStatus.error
    ∧ (connect s w).2.config.status ≠ MCPServerStatus.connected
    ∧ (connect s w).2.config.last_error = some w.failureMsg := by
  cases w with
  | spawnFail m =>
      refine ⟨?_, ?_, ?_, ?_⟩ <;> simp [connect, hproc, ConnectWorld.failureMsg]
  | handshakeFail p n m =>
      refine ⟨?_, ?_, ?_, ?_⟩ <;> simp [connect, hproc, ConnectWorld.failureMsg]
  | handshakeOk p t => simp [ConnectWorld.isFailure] at hfail

/-- A freshly registered, never-connected client. -/
def c2Fresh : MCPClientState := freshClient (demoConfig 1 "uvx" true)

/-- Witness for C2 (amended): a spawn failure against a non-existent
command on a fresh client, with the OS error text captured verbatim. -/
theorem c2_witness :
    c2Fresh.process = none
    ∧ (ConnectWorld.spawnFail "[Errno 2] No such file or directory: 'uvx'").isFailure = true
    ∧ (connect c2Fresh (ConnectWorld.spawnFail "[Errno 2] No such file or directory: 'uvx'")).1 = false
    ∧ (connect c2Fresh (ConnectWorld.spawnFail "[Errno 2] No such file or directory: 'uvx'")).2.config.status
        = MCPServerStatus.error
    ∧ (connect c2Fresh (ConnectWorld.spawnFail "[Errno 2] No such file or directory: 'uvx'")).2.config.last_error
        = some "[Errno 2] No such file or directory: 'uvx'" := by
  have h := c2_connect_failure c2Fresh
    (ConnectWorld.spawnFail "[Errno 2] No such file or directory: 'uvx'") rfl rfl
  exact ⟨rfl, rfl, h.1, h.2.1, h.2.2.2⟩

/-- Counterexample for C2 as stated: a handshake failure whose exception
stringifies to the empty string (a bare `TimeoutError` from the 30-second
`asyncio.wait_for` deadline does exactly this) leaves `last_error` equal
to `some ""` — an empty message, contradicting "last-error message is
non-empty". -/
theorem c2_counterexample :
    (connect c2Fresh (ConnectWorld.handshakeFail 7 1 "")).1 = false
    ∧ (connect c2Fresh (ConnectWorld.handshakeFail 7 1 "")).2.config.status
        = MCPServerStatus.error
    ∧ (connect c2Fresh (ConnectWorld.handshakeFail 7 1 "")).2.config.last_error = some ""
    ∧ ((connect c2Fresh (ConnectWorld.handshakeFail 7 1 "")).2.config.last_error.getD "x").length = 0 :=
  ⟨rfl, rfl, rfl, rfl⟩

/-- Claim C7: `resolve_env_vars` maps each key independently (total, never
raises, every key kept in order); a value without a recognized scheme
passes through unchanged, a recognized scheme resolves to the provider's
secret, and a provider failure degrades that key to the empty string. -/
theorem c7_secret_resolution (w : SecretWorld) (env_config : List (String × String)) :
    resolve_env_vars w env_config = env_config.map (fun kv => (kv.1, resolveValue w kv.2))
    ∧ (resolve_env_vars w env_config).map Prod.fst = env_config.map Prod.fst
    ∧ (∀ v, hasSchemeSep v = false → resolveValue w v = v)
    ∧ (∀ v, providerGetSecret w (schemeOf v) v = none → resolveValue w v = v)
    ∧ (∀ v s, hasSchemeSep v = true →
        providerGetSecret w (schemeOf v) v = some (.ok s) → resolveValue w v = s)
    ∧ (∀ v e, hasSchemeSep v = true →
        providerGetSecret w (schemeOf v) v = some (.error e) → resolveValue w v = "") := by
  have hmap : resolve_env_vars w env_config
      = env_config.map (fun kv => (kv.1, resolveValue w kv.2)) := by
    induction env_config with
    | nil => rfl
    | cons kv rest ih =>
        obtain ⟨k, v⟩ := kv
        simp [resolve_env_vars, ih]
  refine ⟨hmap, ?_, ?_, ?_, ?_, ?_⟩
  · rw [hmap, List.map_map]; rfl
  · intro v hv; simp [resolveValue, hv]
  · intro v hv
    unfold resolveValue
    split
    · rw [hv]
    · rfl
  · intro v s hsep hres; simp [resolveValue, hsep, hres]
  · intro v e hsep hres; simp [resolveValue, hsep, hres]

/-- A host environment with one variable set, and no keyring package. -/
def c7World : SecretWorld :=
  { osEnv := [("API_TOKEN", "tok-123")], keyringAvailable := false, keyring := [] }

/-- The env map of a registered server mixing all three value kinds. -/
def c7EnvCfg : List (String × String) :=
  [("A", "env://API_TOKEN"), ("B", "plain-value"), ("C", "keyring://svc/user")]

/-- Witness for C7: on the concrete world, the plain value passes through,
the `env://` reference resolves, the failing `keyring://` reference (no
keyring package) degrades to `""`, and the whole map resolves pointwise. -/
theorem c7_witness :
    hasSchemeSep "plain-value" = false
    ∧ resolveValue c7World "plain-value" = "plain-value"
    ∧ hasSchemeSep "env://API_TOKEN" = true
    ∧ providerGetSecret c7World (schemeOf "env://API_TOKEN") "env://API_TOKEN"
        = some (Except.ok "tok-123")
    ∧ resolveValue c7World "env://API_TOKEN" = "tok-123"
    ∧ resolveValue c7World "keyring://svc/user" = ""
    ∧ resolve_env_vars c7World c7EnvCfg
        = c7EnvCfg.map (fun kv => (kv.1, resolveValue c7World kv.2)) := by
  have h := c7_secret_resolution c7World c7EnvCfg
  refine ⟨rfl, h.2.2.1 "plain-value" rfl, rfl, rfl,
    h.2.2.2.2.1 "env://API_TOKEN" "tok-123" rfl rfl,
    h.2.2.2.2.2 "keyring://svc/user"
      "keyring package is not installed. Install with: pip install keyring"
      rfl rfl,
    h.1⟩

/-- The loop of `_extract_text` collects exactly the per-block
contributions: each text-tagged block its text, every other block
nothing. -/
theorem collectTextParts_eq_filterMap (items : List JValue) :
    collectTextParts items = items.filterMap textOfBlock := by
  induction items with
  | nil => rfl
  | cons item rest ih =>
    cases item with
    | obj fields =>
        cases hb : isTextBlock fields <;>
          simp [collectTextParts, textOfBlock, hb, List.filterMap_cons, ih]
    | null => simp [collectTextParts, textOfBlock, List.filterMap_cons, ih]
    | bool b => simp [collectTextParts, textOfBlock, List.filterMap_cons, ih]
    | num n => simp [collectTextParts, textOfBlock, List.filterMap_cons, ih]
    | str s => simp [collectTextParts, textOfBlock, List.filterMap_cons, ih]
    | arr xs => simp [collectTextParts, textOfBlock, List.filterMap_cons, ih]

/-- Is the result neither a list nor a dict? -/
def isScalarShape : JValue → Bool
  | .arr _ => false
  | .obj _ => false
  | _ => true

/-- Claim C9 (amended): a list result joins the texts of its text-tagged
blocks with newline separators, in list order, non-text blocks
contributing nothing; a dict result is serialized to JSON; any other
shape is converted with Python `str()` when truthy and yields `""` when
falsy. -/
theorem c9_extract_text_shapes (r : JValue) :
    (∀ items, r = JValue.arr items →
        extract_text r = String.intercalate "\n" (items.filterMap textOfBlock))
    ∧ (∀ fields, r = JValue.obj fields → extract_text r = jsonDumps (JValue.obj fields))
    ∧ (isScalarShape r = true → extract_text r = if truthy r then pyStr r else "") := by
  refine ⟨?_, ?_, ?_⟩
  · rintro items rfl
    simp [extract_text, collectTextParts_eq_filterMap]
  · rintro fields rfl
    rfl
  · intro hs
    cases r with
    | arr xs => simp [isScalarShape] at hs
    | obj fs => simp [isScalarShape] at hs
    | null => rfl
    | bool b => rfl
    | num n => rfl
    | str s => rfl

/-- Witness for C9 (amended): a mixed list result evaluated concretely —
the non-text block drops out, the two text blocks join with a newline. -/
theorem c9_witness :
    extract_text (JValue.arr
        [JValue.obj [("type", JValue.str "text"), ("text", JValue.str "a")],
         JValue.obj [("type", JValue.str "image"), ("data", JValue.str "zz")],
         JValue.obj [("type", JValue.str "text"), ("text", JValue.str "b")]])
      = "a\nb"
    ∧ extract_text (JValue.obj [("ok", JValue.bool true)])
      = jsonDumps (JValue.obj [("ok", JValue.bool true)])
    ∧ isScalarShape (JValue.num 0) = true
    ∧ extract_text (JValue.num 0) = "" := by
  have h1 := c9_extract_text_shapes (JValue.arr
    [JValue.obj [("type", JValue.str "text"), ("text", JValue.str "a")],
     JValue.obj [("type", JValue.str "image"), ("data", JValue.str "zz")],
     JValue.obj [("type", JValue.str "text"), ("text", JValue.str "b")]])
  have h2 := c9_extract_text_shapes (JValue.obj [("ok", JValue.bool true)])
  have h3 := c9_extract_text_shapes (JValue.num 0)
  refine ⟨?_, h2.2.1 _ rfl, rfl, ?_⟩
  · rw [h1.1 _ rfl]; rfl
  · rw [h3.2.2 rfl]; rfl

/-- Counterexample for C9 as stated: a plain-string result is returned by
`str()` verbatim, not JSON-serialized (the spec rendering would quote it);
and the list branch joins with newlines rather than plain concatenation. -/
theorem c9_counterexample :
    extract_text (JValue.str "hi") = "hi"
    ∧ extract_text_spec (JValue.str "hi") = "\"hi\""
    ∧ extract_text (JValue.str "hi") ≠ extract_text_spec (JValue.str "hi")
    ∧ extract_text (JValue.arr
        [JValue.obj [("type", JValue.str "text"), ("text", JValue.str "a")],
         JValue.obj [("type", JValue.str "text"), ("text", JValue.str "b")]]) = "a\nb"
    ∧ extract_text_spec (JValue.arr
        [JValue.obj [("type", JValue.str "text"), ("text", JValue.str "a")],
         JValue.obj [("type", JValue.str "text"), ("text", JValue.str "b")]]) = "ab" := by
  exact ⟨rfl, rfl, by decide, rfl, rfl⟩

/-- Claim C5: with a chunk store injected, a captured call whose extracted
text is non-empty appends exactly one chunk — carrying the formatted
record, the server/tool provenance tags and source, and the optional
project association — and surfaces its id next to the raw result; with
`capture = false` the store is untouched and no id is returned. -/
theorem c5_capture_pipeline (st : ChunkStore) (server_name : Option String)
    (tool_name : String) (arguments r : JValue) (project_id : Option Nat) :
    (extract_text r ≠ "" →
      svc_call_tool (some st) server_name tool_name arguments project_id true (.ok r)
        = .ok ({ tool := tool_name, result := r, chunk_id := some (toString st.nextId) },
               some { nextId := st.nextId + 1,
                      chunks := st.chunks ++
                        [(st.nextId,
                          { content := logEntry (svcServerName server_name) tool_name
                              arguments (extract_text r),
                            project_id := project_id,
                            tags := ["tool_result", "mcp:" ++ svcServerName server_name,
                                     tool_name],
                            source := "mcp:" ++ svcServerName server_name ++ ":" ++
                              tool_name })] }))
    ∧ svc_call_tool (some st) server_name tool_name arguments project_id false (.ok r)
        = .ok ({ tool := tool_name, result := r, chunk_id := none }, some st) := by
  constructor
  · intro h
    have hb : (extract_text r != "") = true := by
      simpa [bne_iff_ne] using h
    simp [svc_call_tool, hb, capture_as_chunk, chunkStoreCreate]
  · simp [svc_call_tool]

/-- A tool result with one text block, and an empty store. -/
def c5Result : JValue :=
  JValue.arr [JValue.obj [("type", JValue.str "text"), ("text", JValue.str "hello")]]

/-- Witness for C5: the concrete captured call appends exactly one tagged
chunk and returns its id; the uncaptured call appends none. -/
theorem c5_witness :
    extract_text c5Result = "hello"
    ∧ svc_call_tool (some { nextId := 41, chunks := [] }) (some "github") "search"
        (JValue.obj [("q", JValue.str "komorebi")]) (some 6) true (.ok c5Result)
      = .ok ({ tool := "search", result := c5Result, chunk_id := some "41" },
             some { nextId := 42,
                    chunks := [(41,
                      { content := logEntry "github" "search"
                          (JValue.obj [("q", JValue.str "komorebi")]) "hello",
                        project_id := some 6,
                        tags := ["tool_result", "mcp:github", "search"],
                        source := "mcp:github:search" })] })
    ∧ svc_call_tool (some { nextId := 41, chunks := [] }) (some "github") "search"
        (JValue.obj [("q", JValue.str "komorebi")]) (some 6) false (.ok c5Result)
      = .ok ({ tool := "search", result := c5Result, chunk_id := none },
             some { nextId := 41, chunks := [] }) := by
  have h := c5_capture_pipeline { nextId := 41, chunks := [] } (some "github") "search"
    (JValue.obj [("q", JValue.str "komorebi")]) c5Result (some 6)
  refine ⟨rfl, ?_, h.2⟩
  have h1 := h.1 (by decide)
  exact h1

/-- A connected client advertising a tool of the given name — the
membership test the routing policy scans for. -/
def advertises (n : String) (c : ClientView) : Bool :=
  decide (c.status = MCPServerStatus.connected) && (toolLoop c.tools n).isSome

/-- The catalog scan misses exactly when no tool carries the name. -/
theorem toolLoop_eq_none_iff (l : List MCPTool) (n : String) :
    toolLoop l n = none ↔ ∀ t ∈ l, t.name ≠ n := by
  induction l with
  | nil => simp [toolLoop]
  | cons t ts ih =>
    by_cases h : t.name = n
    · simp [toolLoop, h]
    · simp [toolLoop, h, ih]

/-- A hit of the catalog scan is a member tool carrying the requested
name. -/
theorem toolLoop_some_spec (l : List MCPTool) (n : String) (t : MCPTool)
    (h : toolLoop l n = some t) : t.name = n ∧ t ∈ l := by
  induction l with
  | nil => cases h
  | cons u us ih =>
    by_cases hn : u.name = n
    · simp only [toolLoop, hn, if_true, Option.some.injEq] at h
      subst h
      exact ⟨hn, List.mem_cons_self u us⟩
    · simp only [toolLoop, hn, if_false] at h
      obtain ⟨h1, h2⟩ := ih h
      exact ⟨h1, List.mem_cons_of_mem u h2⟩

/-- `find_tool` is exactly the first-match scan of `advertises` over the
registration-ordered client list. -/
theorem find_tool_eq_find? (cs : List ClientView) (n : String) :
    (find_tool cs n).map Prod.fst = cs.find? (advertises n) := by
  induction cs with
  | nil => rfl
  | cons c rest ih =>
    by_cases hst : c.status = MCPServerStatus.connected
    · cases hl : toolLoop c.tools n with
      | none =>
        have hadv : advertises n c = false := by simp [advertises, hst, hl]
        rw [List.find?_cons_of_neg _ (by simp [hadv])]
        simp [find_tool, hst, hl, ih]
      | some t =>
        have hadv : advertises n c = true := by simp [advertises, hst, hl]
        rw [List.find?_cons_of_pos _ hadv]
        simp [find_tool, hst, hl]
    · have hadv : advertises n c = false := by simp [advertises, hst]
      rw [List.find?_cons_of_neg _ (by simp [hadv])]
      simp [find_tool, hst, ih]

/-- `find_tool` misses exactly when no connected client's catalog holds
the name. -/
theorem find_tool_eq_none_iff (cs : List ClientView) (n : String) :
    find_tool cs n = none ↔
      ∀ c ∈ cs, c.status = MCPServerStatus.connected → ∀ t ∈ c.tools, t.name ≠ n := by
  induction cs with
  | nil => simp [find_tool]
  | cons c rest ih =>
    by_cases hst : c.status = MCPServerStatus.connected
    · cases hl : toolLoop c.tools n with
      | none =>
        have hft : find_tool (c :: rest) n = find_tool rest n := by
          simp [find_tool, hst, hl]
        rw [hft, ih]
        constructor
        · intro h c' hc' hst' t ht
          rcases List.mem_cons.mp hc' with rfl | hc'
          · exact (toolLoop_eq_none_iff c'.tools n).mp hl t ht
          · exact h c' hc' hst' t ht
        · intro h c' hc'
          exact h c' (List.mem_cons.mpr (Or.inr hc'))
      | some t =>
        have hft : find_tool (c :: rest) n = some (c, t) := by
          simp [find_tool, hst, hl]
        rw [hft]
        constructor
        · intro h; cases h
        · intro h
          exfalso
          have hn : toolLoop c.tools n = none :=
            (toolLoop_eq_none_iff c.tools n).mpr
              (h c (List.mem_cons_self c rest) hst)
          rw [hn] at hl; cases hl
    · have hft : find_tool (c :: rest) n = find_tool rest n := by
        simp [find_tool, hst]
      rw [hft, ih]
      constructor
      · intro h c' hc' hst' t ht
        rcases List.mem_cons.mp hc' with rfl | hc'
        · exact absurd hst' hst
        · exact h c' hc' hst' t ht
      · intro h c' hc'
        exact h c' (List.mem_cons.mpr (Or.inr hc'))

/-- A hit of `find_tool` is a connected client holding a tool of the
requested name. -/
theorem find_tool_some_spec (cs : List ClientView) (n : String) (c : ClientView)
    (t : MCPTool) (h : find_tool cs n = some (c, t)) :
    c.status = MCPServerStatus.connected ∧ t.name = n ∧ t ∈ c.tools := by
  induction cs with
  | nil => cases h
  | cons c' rest ih =>
    by_cases hst : c'.status = MCPServerStatus.connected
    · cases hl : toolLoop c'.tools n with
      | none =>
        rw [show find_tool (c' :: rest) n = find_tool rest n from by
          simp [find_tool, hst, hl]] at h
        exact ih h
      | some u =>
        rw [show find_tool (c' :: rest) n = some (c', u) from by
          simp [find_tool, hst, hl]] at h
        cases h
        obtain ⟨h1, h2⟩ := toolLoop_some_spec _ _ _ hl
        exact ⟨hst, h1, h2⟩
    · rw [show find_tool (c' :: rest) n = find_tool rest n from by
        simp [find_tool, hst]] at h
      exact ih h

/-- Claim C4: `find_tool` is the ordered first-match scan over connected
clients (`List.find?` of `advertises`, so with two connected servers
exposing the same name the first-registered wins, deterministically), it
misses exactly when no connected client's catalog holds the name, a found
pair is a connected client with a matching tool, and `call_tool` raises
"Tool not found" on a miss and otherwise delegates to the resolved
client. -/
theorem c4_first_match_routing (cs : List ClientView) (n : String) :
    ((find_tool cs n).map Prod.fst = cs.find? (advertises n))
    ∧ (find_tool cs n = none ↔
        ∀ c ∈ cs, c.status = MCPServerStatus.connected → ∀ t ∈ c.tools, t.name ≠ n)
    ∧ (∀ c t, find_tool cs n = some (c, t) →
        c.status = MCPServerStatus.connected ∧ t.name = n)
    ∧ (∀ arguments exec, find_tool cs n = none →
        registry_call_tool cs n arguments exec = .error ("Tool not found: " ++ n))
    ∧ (∀ arguments exec c t, find_tool cs n = some (c, t) →
        registry_call_tool cs n arguments exec = .ok (exec c.id n arguments)) := by
  refine ⟨find_tool_eq_find? cs n, find_tool_eq_none_iff cs n, ?_, ?_, ?_⟩
  · intro c t h
    obtain ⟨h1, h2, _⟩ := find_tool_some_spec cs n c t h
    exact ⟨h1, h2⟩
  · intro arguments exec h
    simp [registry_call_tool, h]
  · intro arguments exec c t h
    simp [registry_call_tool, h]

/-- Two connected servers both exposing a tool named `"x"`. -/
def c4ToolX1 : MCPTool :=
  { name := "x", description := none, server_id := 1, input_schema := JValue.obj [] }

/-- The second server's copy of the colliding tool. -/
def c4ToolX2 : MCPTool :=
  { name := "x", description := some "second", server_id := 2, input_schema := JValue.obj [] }

/-- Registration-ordered client list with a cross-server name collision. -/
def c4Clients : List ClientView :=
  [{ id := 1, status := MCPServerStatus.connected, tools := [c4ToolX1] },
   { id := 2, status := MCPServerStatus.connected, tools := [c4ToolX2] }]

/-- Witness for C4: routing the colliding name picks the first-registered
server; delegation and the not-found error evaluated concretely. -/
theorem c4_witness :
    find_tool c4Clients "x"
      = some ({ id := 1, status := MCPServerStatus.connected, tools := [c4ToolX1] }, c4ToolX1)
    ∧ registry_call_tool c4Clients "x" JValue.null (fun i _ _ => JValue.num i)
      = .ok (JValue.num 1)
    ∧ registry_call_tool c4Clients "zzz" JValue.null (fun i _ _ => JValue.num i)
      = .error ("Tool not found: " ++ "zzz") := by
  have h := c4_first_match_routing c4Clients "x"
  have h2 := c4_first_match_routing c4Clients "zzz"
  exact ⟨rfl,
    h.2.2.2.2 JValue.null (fun i _ _ => JValue.num i) _ _ rfl,
    h2.2.2.2.1 JValue.null (fun i _ _ => JValue.num i) rfl⟩

/-- Lookup through a key-preserving pointwise table update. -/
theorem tlookup_map_key (t : PendingTable) (j : Nat)
    (g : Nat → FutureState → FutureState) :
    tlookup (t.map (fun e => (e.1, g e.1 e.2))) j = (tlookup t j).map (g j) := by
  induction t with
  | nil => rfl
  | cons e rest ih =>
    obtain ⟨k, st⟩ := e
    by_cases h : k = j
    · subst h; simp [tlookup]
    · simp [tlookup, h, ih]

/-- A table holding key `i` passes the reader's dict-membership test for a
message whose id is the integer `i`. -/
theorem tlookup_any (t : PendingTable) (i : Nat) (st : FutureState)
    (h : tlookup t i = some st) :
    t.any (fun e => idMatches (JValue.num i) e.1) = true := by
  induction t with
  | nil => simp [tlookup] at h
  | cons e rest ih =>
    obtain ⟨k, stk⟩ := e
    by_cases hk : k = i
    · subst hk
      simp [List.any_cons, idMatches]
    · simp only [tlookup, hk, if_false] at h
      simp [List.any_cons, ih h]

/-- A future already resolved is never touched again by the reader loop:
completion is single-shot (`if future and not future.done()`). -/
theorem readLine_preserves_resolved (t : PendingTable) (j : Nat) (st : FutureState)
    (h : tlookup t j = some st) (hnp : st ≠ FutureState.pending) (ln : Line) :
    tlookup (readLine t ln) j = some st := by
  cases ln with
  | junk => simpa [readLine]
  | msg mid err result =>
    cases mid with
    | none => simpa [readLine]
    | some idv =>
      by_cases hany : t.any (fun e => idMatches idv e.1) = true
      · rw [show readLine t (Line.msg (some idv) err result)
            = t.map (fun e => (e.1, updateEntry idv err result e.1 e.2)) from by
          simp [readLine, hany]]
        rw [tlookup_map_key, h]
        cases st with
        | pending => exact absurd rfl hnp
        | resolvedOk v => simp [updateEntry]
        | resolvedErr m => simp [updateEntry]
      · rw [show readLine t (Line.msg (some idv) err result) = t from by
          simp [readLine, hany]]
        exact h

/-- Claim C1: a parsed message whose integer id has a pending table entry
completes exactly that entry — as a failure carrying the error object's
message when an `error` key is present, as a success carrying the result
payload otherwise; an unparseable line is skipped and the loop survives
any number of them; and a completed entry is never re-completed
(exactly-once), so a matching response is never silently dropped. -/
theorem c1_reader_correlation
    (tbl : PendingTable) (i : Nat) (idv : JValue)
    (err : Option (List (String × JValue))) (result : Option JValue)
    (hidv : idv = JValue.num i)
    (hpend : tlookup tbl i = some FutureState.pending) :
    (tlookup (readLine tbl (Line.msg (some idv) err result)) i
        = some (completeOutcome err result))
    ∧ (∀ eo, err = some eo →
        completeOutcome err result = FutureState.resolvedErr (errMsgOf eo))
    ∧ (err = none →
        completeOutcome err result = FutureState.resolvedOk (result.getD (JValue.obj [])))
    ∧ (∀ t : PendingTable, readLine t Line.junk = t)
    ∧ (∀ (t : PendingTable) (ls : List Line), (∀ l ∈ ls, l = Line.junk) →
        readResponses t ls = t)
    ∧ (∀ (t : PendingTable) (j : Nat) (v : JValue) (ln : Line),
        tlookup t j = some (FutureState.resolvedOk v) →
        tlookup (readLine t ln) j = some (FutureState.resolvedOk v))
    ∧ (∀ (t : PendingTable) (j : Nat) (m : String) (ln : Line),
        tlookup t j = some (FutureState.resolvedErr m) →
        tlookup (readLine t ln) j = some (FutureState.resolvedErr m)) := by
  subst hidv
  refine ⟨?_, ?_, ?_, fun t => rfl, ?_, ?_, ?_⟩
  · have hany := tlookup_any tbl i FutureState.pending hpend
    rw [show readLine tbl (Line.msg (some (JValue.num i)) err result)
        = tbl.map (fun e => (e.1, updateEntry (JValue.num i) err result e.1 e.2)) from by
      simp [readLine, hany]]
    rw [tlookup_map_key, hpend]
    simp [updateEntry, idMatches]
  · intro eo heo; simp [completeOutcome, heo]
  · intro heo; simp [completeOutcome, heo]
  · intro t ls hls
    induction ls generalizing t with
    | nil => rfl
    | cons l rest ih =>
      have hl : l = Line.junk := hls l (List.mem_cons_self l rest)
      subst hl
      simpa [readResponses] using ih t (fun l hl => hls l (List.mem_cons_of_mem _ hl))
  · intro t j v ln h
    exact readLine_preserves_resolved t j _ h (by intro hc; cases hc) ln
  · intro t j m ln h
    exact readLine_preserves_resolved t j _ h (by intro hc; cases hc) ln

/-- A table with two outstanding requests. -/
def c1Table : PendingTable := [(1, FutureState.pending), (2, FutureState.pending)]

/-- Witness for C1: a concrete success response for id 1 and a concrete
error response for id 2, each completing its own entry. -/
theorem c1_witness :
    tlookup c1Table 1 = some FutureState.pending
    ∧ tlookup (readLine c1Table (Line.msg (some (JValue.num 1)) none
        (some (JValue.str "ok")))) 1
      = some (FutureState.resolvedOk (JValue.str "ok"))
    ∧ tlookup (readLine c1Table (Line.msg (some (JValue.num 2))
        (some [("code", JValue.num (-32600)), ("message", JValue.str "boom")]) none)) 2
      = some (FutureState.resolvedErr "boom") := by
  have h1 := c1_reader_correlation c1Table 1 (JValue.num 1) none
    (some (JValue.str "ok")) rfl rfl
  have h2 := c1_reader_correlation c1Table 2 (JValue.num 2)
    (some [("code", JValue.num (-32600)), ("message", JValue.str "boom")]) none rfl rfl
  exact ⟨rfl, h1.1, h2.1⟩

/-- Popping its own key in the `finally` block leaves no entry under that
key. -/
theorem tlookup_filter_ne (l : PendingTable) (i : Nat) :
    tlookup (l.filter (fun e => e.1 != i)) i = none := by
  induction l with
  | nil => rfl
  | cons e rest ih =>
    obtain ⟨k, st⟩ := e
    by_cases h : k = i
    · subst h
      simpa [List.filter_cons] using ih
    · simp only [List.filter_cons, bne_iff_ne, ne_eq, h, not_false_iff, if_true]
      simpa [tlookup, h] using ih

/-- Claim C3: on a connected client, `_request` assigns a correlation id
strictly greater than every previously assigned id, registers the
completion handle under that id before writing the request bytes (the
event trace starts with the registration), and removes its entry from the
pending table on every completion path — the outcome is universally
quantified over success, protocol error and the 30-second timeout. -/
theorem c3_request_lifecycle (s : MCPClientState) (outcome : ReqOutcome) (p : Nat)
    (hconn : s.process = some p) :
    (∀ a ∈ assignedIds s, a < s.rid + 1)
    ∧ (requestRun s outcome).events
        = [ReqEvent.registered (s.rid + 1), ReqEvent.wroteBytes (s.rid + 1)]
    ∧ (requestRun s outcome).events.head? = some (ReqEvent.registered (s.rid + 1))
    ∧ tlookup (requestRun s outcome).state.pending (s.rid + 1) = none
    ∧ (requestRun s outcome).state.rid = s.rid + 1
    ∧ assignedIds (requestRun s outcome).state = assignedIds s ++ [s.rid + 1] := by
  have hpend : (requestRun s outcome).state.pending
      = (s.pending ++ [(s.rid + 1, FutureState.pending)]).filter
          (fun e => e.1 != s.rid + 1) := by
    simp [requestRun, hconn]
  have hev : (requestRun s outcome).events
      = [ReqEvent.registered (s.rid + 1), ReqEvent.wroteBytes (s.rid + 1)] := by
    simp [requestRun, hconn]
  have hrid : (requestRun s outcome).state.rid = s.rid + 1 := by
    simp [requestRun, hconn]
  refine ⟨?_, hev, ?_, ?_, hrid, ?_⟩
  · intro a ha
    simp only [assignedIds, List.mem_map, List.mem_range] at ha
    obtain ⟨x, hx, rfl⟩ := ha
    omega
  · rw [hev]; rfl
  · rw [hpend]
    exact tlookup_filter_ne _ _
  · simp [assignedIds, hrid, List.range_succ]

/-- A connected client that has already issued four requests. -/
def c3Client : MCPClientState :=
  { config := demoConfig 2 "uvx" true, process := some 9, rid := 4,
    pending := [], tools := [], reader_task := false }

/-- Witness for C3: the fifth request gets id 5, registers before writing,
and its entry is gone from the pending table afterwards. -/
theorem c3_witness :
    c3Client.process = some 9
    ∧ (requestRun c3Client (ReqOutcome.success (JValue.obj []))).events
        = [ReqEvent.registered 5, ReqEvent.wroteBytes 5]
    ∧ tlookup (requestRun c3Client (ReqOutcome.success (JValue.obj []))).state.pending 5
        = none
    ∧ (∀ a ∈ assignedIds c3Client, a < 5) := by
  have h := c3_request_lifecycle c3Client (ReqOutcome.success (JValue.obj [])) 9 rfl
  exact ⟨rfl, h.2.1, h.2.2.2.1, h.1⟩

/-- The batch trace never starts an attempt while another is outstanding,
at any outstanding count: each iteration of the loop opens and closes its
attempt before the next begins. -/
theorem connect_all_trace_no_overlap (reg : List RegEntry) :
    anyStartWhileOutstanding (connect_all reg).2 0 = false := by
  induction reg with
  | nil => rfl
  | cons e rest ih =>
    by_cases he : e.client.config.enabled
    · simp [connect_all, he, anyStartWhileOutstanding, ih]
    · simp [connect_all, he, ih]

/-- Claim C8 (amended): `connect_all` awaits one connect attempt per
enabled descriptor, sequentially in registration order — the trace never
overlaps two attempts — and returns (without raising: the function is
total) exactly one id→success entry per enabled descriptor, each carrying
that descriptor's own connect outcome; disabled descriptors are skipped
entirely. -/
theorem c8_connect_all_per_enabled (reg : List RegEntry) :
    (connect_all reg).1
      = (reg.filter (fun e => e.client.config.enabled)).map
          (fun e => (e.client.config.id, (connect e.client e.world).1))
    ∧ (connect_all reg).1.length
        = (reg.filter (fun e => e.client.config.enabled)).length
    ∧ issuedConcurrently (connect_all reg).2 = false := by
  have hmap : (connect_all reg).1
      = (reg.filter (fun e => e.client.config.enabled)).map
          (fun e => (e.client.config.id, (connect e.client e.world).1)) := by
    induction reg with
    | nil => rfl
    | cons e rest ih =>
      by_cases he : e.client.config.enabled
      · simp [connect_all, he, List.filter_cons, ih]
      · simp [connect_all, he, List.filter_cons, ih]
  exact ⟨hmap, by rw [hmap, List.length_map],
    connect_all_trace_no_overlap reg⟩

/-- Three enabled registered servers; the middle one's command does not
exist, so its spawn fails. -/
def c8Reg : List RegEntry :=
  [{ client := freshClient (demoConfig 1 "python" true),
     world := ConnectWorld.handshakeOk 11 [] },
   { client := freshClient (demoConfig 2 "definitely-missing" true),
     world := ConnectWorld.spawnFail "[Errno 2] No such file or directory: 'definitely-missing'" },
   { client := freshClient (demoConfig 3 "node" true),
     world := ConnectWorld.handshakeOk 12 [] }]

/-- Counterexample for C8 as stated: over the three-server registry the
result map does have three entries with exactly one failure, but the
batch's trace shows no attempt is ever issued while another is
outstanding — `connect_all` awaits each connect sequentially, so the
claimed concurrent issuance is false. -/
theorem c8_counterexample :
    ((connect_all c8Reg).1.map Prod.fst = [1, 2, 3])
    ∧ ((connect_all c8Reg).1.map Prod.snd = [true, false, true])
    ∧ ((c8Reg.filter (fun e => e.client.config.enabled)).length = 3)
    ∧ issuedConcurrently (connect_all c8Reg).2 = false
    ∧ (connect_all c8Reg).2
      = [BatchEvent.connStart 1, BatchEvent.connEnd 1 true,
         BatchEvent.connStart 2, BatchEvent.connEnd 2 false,
         BatchEvent.connStart 3, BatchEvent.connEnd 3 true] :=
  ⟨rfl, rfl, rfl, rfl, rfl⟩

end Komorebi
